import Mathlib

/-!
# Upload service (`server.js`): index lookup, upload and stored-name scheme

A shallow embedding of the helpers and the two `/api/notas` handlers of
`cefnf-backend-express-railway/server.js`.

JavaScript strings are sequences of UTF-16 code units; they are modelled as
lists of natural numbers (`JStr`), so that `length`, indexing and the regular
expression of `sanitize` (which has no `u` flag) act per code unit, as in the
source.

State is passed explicitly: a handler takes the content of the index file, and
the upload returns the content it leaves. The two readings of the clock
(`Date.now()` in `storage.filename` and in the upload handler) are parameters.
Headers, the identifier of a lookup and the properties `numero`, `filename`,
`arquivo_url` of a record are strings, `timestamp` is an integer; a value of
`req.body` in an upload is a string, absent, or a value that is not a string
(`Field`). Failures of the file system other than an unreadable index file are
outside the model.
-/

set_option maxRecDepth 100000

namespace Cefnf

/-! ## Strings -/

/-- A JavaScript string: its UTF-16 code units. -/
abbrev JStr := List Nat

/-- UTF-16 code units of one Unicode scalar value. -/
def charUnits (c : Char) : JStr :=
  if c.toNat < 0x10000 then [c.toNat]
  else [0xD800 + (c.toNat - 0x10000) / 1024, 0xDC00 + (c.toNat - 0x10000) % 1024]

/-- UTF-16 code units of a list of Unicode scalar values. -/
def unitsOf : List Char → JStr
  | [] => []
  | c :: cs => charUnits c ++ unitsOf cs

/-- The JavaScript string written as a literal. -/
def utf16 (s : String) : JStr := unitsOf s.toList

/-- The class `\w` of a regular expression without the `i` and `u` flags:
`A`-`Z`, `a`-`z`, `0`-`9` and `_`. -/
def isWordChar (c : Nat) : Bool :=
  (65 ≤ c && c ≤ 90) || (97 ≤ c && c ≤ 122) || (48 ≤ c && c ≤ 57) || c == 95

/-- Complement of the class `[^\w.\-]`: word characters, `.` (46) and `-` (45). -/
def isAllowed (c : Nat) : Bool :=
  isWordChar c || c == 46 || c == 45

/-- Source: `function sanitize(name = "") { return name.replace(/[^\w.\-]/g, "_"); }`.
The global replace of a one-character class rewrites every code unit on its own. -/
def sanitize (name : JStr) : JStr :=
  name.map (fun c => if isAllowed c then c else 95)

/-- Source: `String.prototype.trim` strips these code units from both ends: the ECMAScript
WhiteSpace (TAB, VT, FF, SP, NBSP, ZWNBSP and the other space separators) and
LineTerminator (LF, CR, LS, PS) characters, all of them in the BMP. -/
def isWhiteSpace (c : Nat) : Bool :=
  c == 9 || c == 10 || c == 11 || c == 12 || c == 13 || c == 32 || c == 0xA0 ||
  c == 0x1680 || (0x2000 ≤ c && c ≤ 0x200A) || c == 0x2028 || c == 0x2029 ||
  c == 0x202F || c == 0x205F || c == 0x3000 || c == 0xFEFF

/-- Source: `s.trim()`. -/
def trim (s : JStr) : JStr :=
  ((s.dropWhile isWhiteSpace).reverse.dropWhile isWhiteSpace).reverse

/-- Source: `name.startsWith(p)`. -/
def startsWith (name p : JStr) : Bool := p.isPrefixOf name

/-- Truthiness of a value that is a string or `undefined` (`none`): only a non-empty
string is truthy. -/
def truthy : Option JStr → Bool
  | some (_ :: _) => true
  | _ => false

/-- Source: `a || b` on values that are strings or `undefined`. -/
def jsOr (a b : Option JStr) : Option JStr :=
  if truthy a then a else b

/-- Source: `String(v)` and the interpolation of `v` in a template literal, for a value
that is a string or `undefined`. -/
def jsString : Option JStr → JStr
  | some s => s
  | none => utf16 "undefined"

/-- Decimal digits of `n`, most significant first; `fuel` bounds the number of digits. -/
def decimalFuel : Nat → Nat → JStr
  | 0, _ => []
  | fuel + 1, n => if n < 10 then [48 + n] else decimalFuel fuel (n / 10) ++ [48 + n % 10]

/-- Source: the interpolation of the number `Date.now()` in a template literal. Epoch
milliseconds are non-negative integers far below 10^21, which JavaScript prints as plain
decimal digits. -/
def decimal (n : Nat) : JStr := decimalFuel (n + 1) n

/-! ### `encodeURIComponent` -/

/-- The characters `encodeURIComponent` leaves as they are: letters, digits and
`- _ . ! ~ * ' ( )`. -/
def isUnreserved (c : Nat) : Bool :=
  (65 ≤ c && c ≤ 90) || (97 ≤ c && c ≤ 122) || (48 ≤ c && c ≤ 57) ||
  c == 45 || c == 95 || c == 46 || c == 33 || c == 126 || c == 42 || c == 39 ||
  c == 40 || c == 41

/-- An upper-case hexadecimal digit. -/
def hexDigit (n : Nat) : Nat := if n < 10 then 48 + n else 55 + n

/-- The escape `%XX` of one byte. -/
def pctByte (b : Nat) : JStr := [37, hexDigit (b / 16), hexDigit (b % 16)]

/-- UTF-8 bytes of a code point. -/
def utf8Bytes (cp : Nat) : List Nat :=
  if cp < 0x80 then [cp]
  else if cp < 0x800 then [0xC0 + cp / 64, 0x80 + cp % 64]
  else if cp < 0x10000 then [0xE0 + cp / 4096, 0x80 + cp / 64 % 64, 0x80 + cp % 64]
  else [0xF0 + cp / 262144, 0x80 + cp / 4096 % 64, 0x80 + cp / 64 % 64, 0x80 + cp % 64]

/-- The escapes of the UTF-8 bytes of a code point. -/
def pctCodePoint (cp : Nat) : JStr :=
  (utf8Bytes cp).foldr (fun b acc => pctByte b ++ acc) []

/-- A leading (high) surrogate. -/
def isHighSurrogate (c : Nat) : Bool := 0xD800 ≤ c && c ≤ 0xDBFF

/-- A trailing (low) surrogate. -/
def isLowSurrogate (c : Nat) : Bool := 0xDC00 ≤ c && c ≤ 0xDFFF

/-- Source: `encodeURIComponent(s)` (ECMAScript `Encode`); `none` is the `URIError` thrown
at a surrogate that is not part of a pair. -/
def encodeURIComponent : JStr → Option JStr
  | [] => some []
  | c :: rest =>
    if isUnreserved c then (encodeURIComponent rest).map (fun t => c :: t)
    else if isLowSurrogate c then none
    else if isHighSurrogate c then
      match rest with
      | [] => none
      | d :: rest2 =>
        if isLowSurrogate d then
          (encodeURIComponent rest2).map
            (fun t => pctCodePoint ((c - 0xD800) * 1024 + (d - 0xDC00) + 0x10000) ++ t)
        else none
    else (encodeURIComponent rest).map (fun t => pctCodePoint c ++ t)

/-! ## Request context and URL builder -/

/-- What `fullBaseUrl` reads of a request. -/
structure Req where
  /-- The header `req.headers["x-forwarded-proto"]`. -/
  xForwardedProto : Option JStr
  /-- The value `req.protocol`. -/
  protocol : JStr
  /-- The header `req.headers["x-forwarded-host"]`. -/
  xForwardedHost : Option JStr
  /-- The header `req.headers.host`. -/
  host : Option JStr
deriving DecidableEq, Repr

/-- Source: `ENV_PUBLIC.replace(/\/+$/, "")`: the run of slashes (47) at the end is removed. -/
def stripTrailingSlashes (s : JStr) : JStr :=
  (s.reverse.dropWhile (fun c => c == 47)).reverse

/-- Source: `fullBaseUrl(req)`, with the constant `ENV_PUBLIC` as a parameter. -/
def fullBaseUrl (ENV_PUBLIC : JStr) (req : Req) : JStr :=
  if truthy (some ENV_PUBLIC) then stripTrailingSlashes ENV_PUBLIC
  else
    let proto := jsString (jsOr (jsOr req.xForwardedProto (some req.protocol)) (some (utf16 "http")))
    let host := jsOr req.xForwardedHost req.host
    proto ++ utf16 "://" ++ jsString host

/-- Source: the template `${fullBaseUrl(req)}/uploads/${encodeURIComponent(name)}`;
`none` when `encodeURIComponent` throws. -/
def uploadUrl (ENV_PUBLIC : JStr) (req : Req) (name : JStr) : Option JStr :=
  (encodeURIComponent name).map (fun e => fullBaseUrl ENV_PUBLIC req ++ utf16 "/uploads/" ++ e)

/-! ## Index store -/

/-- One entry of `items`, with the properties the upload handler writes. JSON numbers are
modelled as integers: the comparator of the lookup only uses the sign of a difference. -/
structure UploadRecord where
  numero : JStr
  /-- The property `data`; `none` is JSON `null`. -/
  data : Option JStr
  filename : JStr
  arquivo_url : JStr
  timestamp : Int
deriving DecidableEq, Repr

/-- The object parsed from the index file, as far as the handlers read it: its property
`items`, `none` when the object has no such property (as in `{}`). -/
structure IndexDoc where
  items : Option (List UploadRecord)
deriving DecidableEq, Repr

/-- The index file `data/index.json`: `unreadable` when `fse.readJson` throws (the file is
missing or is not JSON), else the parsed document. -/
inductive IndexFile where
  | unreadable
  | parsed (doc : IndexDoc)
deriving DecidableEq, Repr

/-- Source: the bootstrap `fse.writeJson(INDEX_FILE, { items: [] })` of a missing index. -/
def bootstrapIndex : IndexFile := .parsed { items := some [] }

/-- Source: `loadIndex()`: `try { return await fse.readJson(INDEX_FILE) } catch { return { items: [] } }`. -/
def loadIndex : IndexFile → IndexDoc
  | .unreadable => { items := some [] }
  | .parsed doc => doc

/-- Source: `saveIndex(data)`: the whole file is overwritten with `data`. -/
def saveIndex (data : IndexDoc) : IndexFile := .parsed data

/-! ## Responses -/

/-- The JSON bodies the two handlers send. -/
inductive Body where
  /-- The body `{ ok: true, numero, arquivo_url }`. -/
  | found (numero arquivo_url : JStr)
  /-- The body `{ ok: true, numeroEnvio, data, arquivo_url }`; `data = none` is `null`. -/
  | uploaded (numeroEnvio : JStr) (data : Option JStr) (arquivo_url : JStr)
  /-- The body `{ ok: false, erro }`. -/
  | erro (msg : String)
deriving DecidableEq, Repr

/-- An HTTP response: status code and JSON body. -/
structure Response where
  status : Nat
  body : Body
deriving DecidableEq, Repr

/-- How a handler run ends: it sends a response, or an exception leaves the handler and
nothing is sent by it. -/
inductive Outcome where
  | responded (r : Response)
  | threw
deriving DecidableEq, Repr

/-! ## Lookup: `GET /api/notas/:numero?` -/

/-- Insertion of `a` in front of a list sorted by the comparator `cmp`: `a` goes before the
first `b` with `cmp a b ≤ 0`. -/
def insertStable {α : Type} (cmp : α → α → Int) (a : α) : List α → List α
  | [] => [a]
  | b :: l => if cmp a b ≤ 0 then a :: b :: l else b :: insertStable cmp a l

/-- Source: `Array.prototype.sort(cmp)`, which is stable: elements are ordered by `cmp`
(negative: first argument first) and elements that compare equal keep their order. -/
def sortStable {α : Type} (cmp : α → α → Int) : List α → List α
  | [] => []
  | a :: l => insertStable cmp a (sortStable cmp l)

/-- Source: the comparator `(a,b) => b.timestamp - a.timestamp`. -/
def byTimestampDesc (a b : UploadRecord) : Int := b.timestamp - a.timestamp

/-- A lookup request: the route parameter and the query parameter `numero`. -/
structure LookupReq where
  req : Req
  /-- The value `req.params.numero`. -/
  paramsNumero : Option JStr
  /-- The value `req.query.numero`. -/
  queryNumero : Option JStr
deriving DecidableEq, Repr

/-- Source: `[...idx.items].filter(x => String(x.numero) === String(numero))
.sort((a,b) => b.timestamp - a.timestamp)[0]`. -/
def findInIndex (items : List UploadRecord) (numero : JStr) : Option UploadRecord :=
  (sortStable byTimestampDesc (items.filter (fun x => x.numero == numero))).head?

/-- Source: `files.find(name => name.startsWith(sanitize(String(numero)) + "-"))`. The
names that `fse.readdir` returns are decoded from UTF-8, hence sequences of Unicode scalar
values (`String`). -/
def findInFiles (files : List String) (numero : JStr) : Option String :=
  files.find? (fun name => startsWith (utf16 name) (sanitize numero ++ utf16 "-"))

/-- Source: the handler of `GET /api/notas/:numero?`, lines 89-110. `files` is the listing
`fse.readdir(UPLOAD_DIR)`. The handler has no `try`: spreading an `idx.items` that is
`undefined` and a throwing `encodeURIComponent` leave it as exceptions. -/
def getNotas (ENV_PUBLIC : JStr) (indexFile : IndexFile) (files : List String)
    (r : LookupReq) : Outcome :=
  let numero := jsOr r.paramsNumero r.queryNumero
  if truthy numero = false then .responded ⟨400, .erro "Informe o número"⟩
  else
    let idx := loadIndex indexFile
    match idx.items with
    | none => .threw
    | some items =>
      match findInIndex items (jsString numero) with
      | some found => .responded ⟨200, .found found.numero found.arquivo_url⟩
      | none =>
        match findInFiles files (jsString numero) with
        | none => .responded ⟨404, .erro "Nota não encontrada"⟩
        | some m =>
          match uploadUrl ENV_PUBLIC r.req (utf16 m) with
          | none => .threw
          | some url => .responded ⟨200, .found (jsString numero) url⟩

/-- The lookup as a step on the index file: the handler never calls `saveIndex`. -/
def getNotasStep (ENV_PUBLIC : JStr) (indexFile : IndexFile) (files : List String)
    (r : LookupReq) : Outcome × IndexFile :=
  (getNotas ENV_PUBLIC indexFile files r, indexFile)

/-! ## Upload: `POST /api/notas` -/

/-- Source: `storage.filename`, lines 70-75: `bodyNumeroEnvio` is `req.body.numeroEnvio` at
the moment the file part is stored, `ts` is `Date.now()`. -/
def storageFilename (bodyNumeroEnvio : Option JStr) (ts : Nat) (originalname : Option JStr) :
    JStr :=
  let numeroEnvio := sanitize (jsString (jsOr bodyNumeroEnvio (some (utf16 "sem_numero"))))
  let orig := sanitize (jsString (jsOr originalname (some (utf16 "arquivo"))))
  numeroEnvio ++ utf16 "-" ++ decimal ts ++ utf16 "-" ++ orig

/-- A value of `req.body`, as the handler and `storage.filename` tell values apart. Multer
gives a string for a form field, and an array or an object (`other`) for a field that is
repeated or written with brackets; a JSON body parsed by `express.json` can also hold
`null`, `false` or `0` (`falsy`) and numbers, `true`, arrays or objects (`other`). -/
inductive Field where
  /-- The property is absent. -/
  | undefined
  /-- A string. -/
  | str (s : JStr)
  /-- A falsy value that is not a string: `null`, `false`, `0`. -/
  | falsy
  /-- A truthy value that is not a string; it has neither `trim` nor `replace`. -/
  | other
deriving DecidableEq, Repr

/-- The string of a field value, `none` for a value that is not a string. -/
def Field.toOption : Field → Option JStr
  | .str s => some s
  | _ => none

/-- Source: `(v || "").trim()`, lines 116-117; `none` is the `TypeError` of calling `trim`
on a truthy value that is not a string. -/
def orEmptyTrim : Field → Option JStr
  | .other => none
  | v => some (trim (jsString (jsOr v.toOption (some []))))

/-- An upload request: the values of `numeroEnvio` and `data` in `req.body`, and the file
part `arquivo` of a multipart body. -/
structure UploadReq where
  req : Req
  /-- The value `req.body.numeroEnvio` once the whole body is parsed. -/
  numeroEnvio : Field
  /-- The value `req.body.data` once the whole body is parsed. -/
  data : Field
  /-- The file name (`originalname`) of the file part `arquivo`; `none` when the body has no
  such part. -/
  arquivo : Option JStr
  /-- Whether the field `numeroEnvio` comes before the file part in the request body. -/
  numeroEnvioFirst : Bool
deriving DecidableEq, Repr

/-- The object `req.file` that multer hands to the handler. -/
structure UploadedFile where
  originalname : JStr
  filename : JStr
deriving DecidableEq, Repr

/-- The middleware `upload.single("arquivo")` with the disk storage of lines 68-76; the
result is `req.file` (`none` for `undefined`), or `none` when `storage.filename` throws and
the handler is not reached.

* Multer skips a file part whose file name is empty, so `req.file` stays `undefined`.
* Multer handles the parts of the multipart body in the order they arrive and calls
  `storage.filename` when it meets the file part, so `req.body` then holds only the fields
  sent before the file (multer documents that `req.body` "might not have been fully
  populated yet" in `filename`: "it depends on the order that the client transmits fields
  and files").
* For a truthy `req.body.numeroEnvio` that is not a string, `sanitize` calls `replace`
  on it and throws a `TypeError`. -/
def multerSingle (r : UploadReq) (ts : Nat) : Option (Option UploadedFile) :=
  match r.arquivo with
  | some (c :: cs) =>
    match (if r.numeroEnvioFirst then r.numeroEnvio else Field.undefined) with
    | .other => none
    | v =>
      some (some { originalname := c :: cs
                   filename := storageFilename v.toOption ts (some (c :: cs)) })
  | _ => some none

/-- Source: the body of the `try` block of the upload handler, lines 116-134; `none` when
an exception is thrown inside it. `now` is the `Date.now()` of line 130. -/
def postNotasTry (ENV_PUBLIC : JStr) (indexFile : IndexFile) (r : UploadReq)
    (file : Option UploadedFile) (now : Nat) : Option (Response × IndexFile) :=
  match orEmptyTrim r.numeroEnvio, orEmptyTrim r.data with
  | some numeroEnvio, some data =>
    match truthy (some numeroEnvio), file with
    | true, some f =>
      match uploadUrl ENV_PUBLIC r.req f.filename with
      | none => none
      | some url =>
        let idx := loadIndex indexFile
        match idx.items with
        | none => none
        | some items =>
          let dataOrNull := if truthy (some data) then some data else none
          let idx2 : IndexDoc :=
            { items := some (items ++ [{ numero := numeroEnvio, data := dataOrNull,
                                         filename := f.filename, arquivo_url := url,
                                         timestamp := (now : Int) }]) }
          some (⟨200, .uploaded numeroEnvio dataOrNull url⟩, saveIndex idx2)
    | _, _ => some (⟨400, .erro "Campos obrigatórios: numeroEnvio e arquivo"⟩, indexFile)
  | _, _ => none

/-- Source: the handler of `POST /api/notas`, lines 114-139: the `try` block and its
`catch`, which answers 500 and leaves the index file as it was. -/
def postNotasHandler (ENV_PUBLIC : JStr) (indexFile : IndexFile) (r : UploadReq)
    (file : Option UploadedFile) (now : Nat) : Outcome × IndexFile :=
  match postNotasTry ENV_PUBLIC indexFile r file now with
  | some (resp, indexFile2) => (.responded resp, indexFile2)
  | none => (.responded ⟨500, .erro "Falha interna ao enviar"⟩, indexFile)

/-- The route `POST /api/notas`: multer stores the file part at time `ts`, then the handler
runs at time `now`; when `storage.filename` throws inside multer the handler does not run. -/
def postNotas (ENV_PUBLIC : JStr) (indexFile : IndexFile) (r : UploadReq) (ts now : Nat) :
    Outcome × IndexFile :=
  match multerSingle r ts with
  | none => (.threw, indexFile)
  | some file => postNotasHandler ENV_PUBLIC indexFile r file now

/-! ## Specification-side definitions and sample data -/

/-- Value of a string of decimal digits. -/
def digitsValue (l : JStr) : Nat := l.foldl (fun v d => 10 * v + (d - 48)) 0

/-- The invariant of the data model, as a check on the index file: every record of the
persisted items list has a non-empty `numero`. -/
def numeroNonEmpty : IndexFile → Bool
  | .unreadable => true
  | .parsed doc =>
    match doc.items with
    | none => true
    | some items => items.all (fun x => x.numero != [])

/-- The value `data || null` that the upload handler stores and returns, for the value
`data` of `req.body`. -/
def dataOrNull (data : Field) : Option JStr :=
  match orEmptyTrim data with
  | some (c :: cs) => some (c :: cs)
  | _ => none

/-- A request context used in the examples. -/
def exampleReq : Req :=
  { xForwardedProto := none, protocol := utf16 "http", xForwardedHost := none,
    host := some (utf16 "example.org") }

/-- An upload of identifier ` 12345 ` (with blanks around it) and file `nf 1.pdf`, the
field sent before the file part. -/
def exampleUpload : UploadReq :=
  { req := exampleReq, numeroEnvio := .str (utf16 " 12345 "),
    data := .str (utf16 "2024-01-31"), arquivo := some (utf16 "nf 1.pdf"),
    numeroEnvioFirst := true }

/-- The upload of identifier `12345` and file `nf.pdf` in which the file part is sent before
the field `numeroEnvio`. -/
def fileFirstUpload : UploadReq :=
  { req := exampleReq, numeroEnvio := .str (utf16 "12345"), data := .undefined,
    arquivo := some (utf16 "nf.pdf"), numeroEnvioFirst := false }

/-- The same upload with the field `numeroEnvio` sent before the file part. -/
def fieldFirstUpload : UploadReq :=
  { req := exampleReq, numeroEnvio := .str (utf16 "12345"), data := .undefined,
    arquivo := some (utf16 "nf.pdf"), numeroEnvioFirst := true }

/-- A request without a file part in which the field `numeroEnvio` is sent twice, so that
`req.body.numeroEnvio` is an array. -/
def repeatedFieldUpload : UploadReq :=
  { req := exampleReq, numeroEnvio := .other, data := .undefined, arquivo := none,
    numeroEnvioFirst := true }

/-- The record the lookup is expected to pick, by recursion on the items: among the records
whose `numero` is `n`, the first one in list order that has the greatest timestamp. -/
def latestOf (n : JStr) : List UploadRecord → Option UploadRecord
  | [] => none
  | a :: l =>
    if a.numero = n then
      match latestOf n l with
      | none => some a
      | some b => if b.timestamp ≤ a.timestamp then some a else some b
    else latestOf n l

/-- An index with two uploads for `12345` that share the greatest timestamp, and one older. -/
def exampleItems : List UploadRecord :=
  [ { numero := utf16 "12345", data := none, filename := utf16 "12345-1-a.pdf",
      arquivo_url := utf16 "http://example.org/uploads/12345-1-a.pdf", timestamp := 1 },
    { numero := utf16 "777", data := none, filename := utf16 "777-9-z.pdf",
      arquivo_url := utf16 "http://example.org/uploads/777-9-z.pdf", timestamp := 9 },
    { numero := utf16 "12345", data := none, filename := utf16 "12345-5-b.pdf",
      arquivo_url := utf16 "http://example.org/uploads/12345-5-b.pdf", timestamp := 5 },
    { numero := utf16 "12345", data := none, filename := utf16 "12345-5-c.pdf",
      arquivo_url := utf16 "http://example.org/uploads/12345-5-c.pdf", timestamp := 5 } ]

/-- The request `GET /api/notas/12345`. -/
def exampleLookup : LookupReq :=
  { req := exampleReq, paramsNumero := some (utf16 "12345"), queryNumero := none }

/-- The request `GET /api/notas?numero=`, whose identifier is the empty string. -/
def emptyLookup : LookupReq :=
  { req := exampleReq, paramsNumero := none, queryNumero := some [] }

end Cefnf

namespace Cefnf

/-! ## The sanitizer -/

/-- C1: `sanitize` keeps the length, keeps every allowed code unit (word character, `.`, `-`)
in place and puts `_` at every other position; hence its output has allowed code units only,
and the empty string is mapped to the empty string. -/
theorem sanitize_spec (s : JStr) :
    (sanitize s).length = s.length ∧
    (∀ i : Nat, ∀ c : Nat, s[i]? = some c →
      (sanitize s)[i]? = some (if isAllowed c then c else 95)) ∧
    (∀ c ∈ sanitize s, isAllowed c = true) ∧
    sanitize [] = [] := by
  refine ⟨by simp [sanitize], ?_, ?_, rfl⟩
  · intro i c h
    simp [sanitize, List.getElem?_map, h]
  · intro c hc
    simp only [sanitize, List.mem_map] at hc
    obtain ⟨a, -, rfl⟩ := hc
    by_cases h : isAllowed a = true
    · simp [h]
    · rw [if_neg h]
      decide

/-! ## Auxiliary facts: decimal digits -/

theorem decimalFuel_digits (fuel n : Nat) : ∀ c ∈ decimalFuel fuel n, 48 ≤ c ∧ c ≤ 57 := by
  induction fuel generalizing n with
  | zero => intro c hc; simp [decimalFuel] at hc
  | succ k ih =>
    intro c hc
    unfold decimalFuel at hc
    split at hc
    · simp at hc; omega
    · rcases List.mem_append.mp hc with h | h
      · exact ih _ c h
      · simp at h; omega

theorem digitsValue_decimalFuel (fuel n : Nat) (h : n < fuel) :
    digitsValue (decimalFuel fuel n) = n := by
  induction fuel generalizing n with
  | zero => omega
  | succ k ih =>
    unfold decimalFuel
    split
    · simp [digitsValue]
    · have hk : n / 10 < k := by omega
      have h2 := ih (n / 10) hk
      unfold digitsValue at h2 ⊢
      rw [List.foldl_append, h2]
      simp only [List.foldl_cons, List.foldl_nil]
      omega

theorem decimal_injective (a b : Nat) (h : decimal a = decimal b) : a = b := by
  have ha := digitsValue_decimalFuel (a + 1) a (by omega)
  have hb := digitsValue_decimalFuel (b + 1) b (by omega)
  unfold decimal at h
  rw [h] at ha
  omega

theorem decimal_digits (n : Nat) : ∀ c ∈ decimal n, 48 ≤ c ∧ c ≤ 57 :=
  decimalFuel_digits _ _

/-! ## Auxiliary facts: `encodeURIComponent` -/

theorem encodeURIComponent_unreserved (s : JStr) (h : ∀ c ∈ s, isUnreserved c = true) :
    encodeURIComponent s = some s := by
  induction s with
  | nil => rfl
  | cons c rest ih =>
    have hc : isUnreserved c = true := h c (List.mem_cons_self _ _)
    have hr := ih (fun d hd => h d (List.mem_cons_of_mem _ hd))
    unfold encodeURIComponent
    simp [hc, hr]

theorem isUnreserved_of_isAllowed (c : Nat) (h : isAllowed c = true) : isUnreserved c = true := by
  simp only [isAllowed, isWordChar, isUnreserved, Bool.or_eq_true, Bool.and_eq_true,
    decide_eq_true_eq, beq_iff_eq] at h ⊢
  omega

theorem sanitize_allowed (s : JStr) : ∀ c ∈ sanitize s, isAllowed c = true := by
  intro c hc
  simp only [sanitize, List.mem_map] at hc
  obtain ⟨a, -, rfl⟩ := hc
  by_cases h : isAllowed a = true
  · simp [h]
  · rw [if_neg h]; decide

theorem char_scalar (c : Char) : c.toNat < 0xD800 ∨ (0xDFFF < c.toNat ∧ c.toNat < 0x110000) := by
  have h := c.valid
  simpa [UInt32.isValidChar, Nat.isValidChar, Char.toNat] using h

theorem encodeURIComponent_unitsOf (cs : List Char) :
    ∃ e, encodeURIComponent (unitsOf cs) = some e := by
  induction cs with
  | nil => exact ⟨[], rfl⟩
  | cons c cs ih =>
    obtain ⟨e, he⟩ := ih
    have hv := char_scalar c
    by_cases hb : c.toNat < 0x10000
    · have hu : unitsOf (c :: cs) = c.toNat :: unitsOf cs := by simp [unitsOf, charUnits, hb]
      rw [hu]
      have hl : isLowSurrogate c.toNat = false := by
        simp only [isLowSurrogate, Bool.and_eq_false_iff, decide_eq_false_iff_not]; omega
      have hh : isHighSurrogate c.toNat = false := by
        simp only [isHighSurrogate, Bool.and_eq_false_iff, decide_eq_false_iff_not]; omega
      by_cases hun : isUnreserved c.toNat = true
      · unfold encodeURIComponent
        simp [hun, he]
      · unfold encodeURIComponent
        simp [hun, hl, hh, he]
    · have hu : unitsOf (c :: cs) =
          (0xD800 + (c.toNat - 0x10000) / 1024) :: (0xDC00 + (c.toNat - 0x10000) % 1024) ::
            unitsOf cs := by simp [unitsOf, charUnits, hb]
      rw [hu]
      have h1 : isUnreserved (0xD800 + (c.toNat - 0x10000) / 1024) = false := by
        simp only [isUnreserved, Bool.or_eq_false_iff, Bool.and_eq_false_iff,
          decide_eq_false_iff_not, beq_eq_false_iff_ne]
        omega
      have h2 : isLowSurrogate (0xD800 + (c.toNat - 0x10000) / 1024) = false := by
        simp only [isLowSurrogate, Bool.and_eq_false_iff, decide_eq_false_iff_not]; omega
      have h3 : isHighSurrogate (0xD800 + (c.toNat - 0x10000) / 1024) = true := by
        simp only [isHighSurrogate, Bool.and_eq_true, decide_eq_true_eq]; omega
      have h4 : isLowSurrogate (0xDC00 + (c.toNat - 0x10000) % 1024) = true := by
        simp only [isLowSurrogate, Bool.and_eq_true, decide_eq_true_eq]; omega
      unfold encodeURIComponent
      simp [h1, h2, h3, h4, he]

/-! ## Auxiliary facts: the lookup in the index -/

theorem head_insertStable {α : Type} (cmp : α → α → Int) (a : α) (l : List α) :
    (insertStable cmp a l).head? =
      match l.head? with
      | none => some a
      | some b => if cmp a b ≤ 0 then some a else some b := by
  cases l with
  | nil => rfl
  | cons b l =>
    simp only [insertStable, List.head?_cons]
    split <;> rfl

theorem insertStable_perm {α : Type} (cmp : α → α → Int) (a : α) (l : List α) :
    (insertStable cmp a l).Perm (a :: l) := by
  induction l with
  | nil => exact List.Perm.refl _
  | cons b l ih =>
    unfold insertStable
    split
    · exact List.Perm.refl _
    · exact (List.Perm.cons b ih).trans (List.Perm.swap a b l)

/-- The model of `sort` rearranges its input. -/
theorem sortStable_perm {α : Type} (cmp : α → α → Int) (l : List α) :
    (sortStable cmp l).Perm l := by
  induction l with
  | nil => exact List.Perm.refl _
  | cons a l ih =>
    exact (insertStable_perm cmp a (sortStable cmp l)).trans (List.Perm.cons a ih)

theorem insertStable_sorted (a : UploadRecord) (l : List UploadRecord)
    (h : l.Pairwise (fun x y => y.timestamp ≤ x.timestamp)) :
    (insertStable byTimestampDesc a l).Pairwise (fun x y => y.timestamp ≤ x.timestamp) := by
  induction l with
  | nil => simp [insertStable]
  | cons b l ih =>
    have hb := List.pairwise_cons.mp h
    unfold insertStable
    split
    · rename_i hc
      simp only [byTimestampDesc] at hc
      refine List.pairwise_cons.mpr ⟨?_, h⟩
      intro y hy
      rcases List.mem_cons.mp hy with rfl | hy
      · omega
      · have := hb.1 y hy
        omega
    · rename_i hc
      simp only [byTimestampDesc] at hc
      refine List.pairwise_cons.mpr ⟨?_, ih hb.2⟩
      intro y hy
      rcases List.mem_cons.mp ((insertStable_perm byTimestampDesc a l).subset hy) with rfl | hy
      · omega
      · exact hb.1 y hy

/-- The model of `sort` with the comparator of the lookup orders by descending timestamp. -/
theorem sortStable_sorted (l : List UploadRecord) :
    (sortStable byTimestampDesc l).Pairwise (fun x y => y.timestamp ≤ x.timestamp) := by
  induction l with
  | nil => exact List.Pairwise.nil
  | cons a l ih => exact insertStable_sorted a _ ih

theorem findInIndex_eq_latestOf (n : JStr) (items : List UploadRecord) :
    findInIndex items n = latestOf n items := by
  unfold findInIndex
  induction items with
  | nil => rfl
  | cons a l ih =>
    by_cases h : a.numero = n
    · have hf : List.filter (fun x => x.numero == n) (a :: l) =
          a :: List.filter (fun x => x.numero == n) l := by
        simp [List.filter_cons, h]
      rw [hf]
      simp only [sortStable, head_insertStable, ih, latestOf, h, if_true]
      cases latestOf n l with
      | none => rfl
      | some b => simp [byTimestampDesc]
    · have hf : List.filter (fun x => x.numero == n) (a :: l) =
          List.filter (fun x => x.numero == n) l := by
        simp [List.filter_cons, h]
      rw [hf, ih]
      simp [latestOf, h]

theorem latestOf_eq_none (n : JStr) (items : List UploadRecord) (h : latestOf n items = none) :
    ∀ x ∈ items, x.numero ≠ n := by
  induction items with
  | nil => intro x hx; cases hx
  | cons a l ih =>
    by_cases ha : a.numero = n
    · simp only [latestOf, ha, if_true] at h
      cases hl : latestOf n l with
      | none => simp [hl] at h
      | some b =>
        simp only [hl] at h
        split at h <;> cases h
    · simp only [latestOf, ha, if_false] at h
      intro x hx
      rcases List.mem_cons.mp hx with rfl | hx
      · exact ha
      · exact ih h x hx

theorem latestOf_spec (n : JStr) (items : List UploadRecord) (x : UploadRecord)
    (h : latestOf n items = some x) :
    ∃ i : Nat, items[i]? = some x ∧ x.numero = n ∧
      (∀ (j : Nat) (y : UploadRecord), items[j]? = some y → y.numero = n →
        y.timestamp ≤ x.timestamp) ∧
      (∀ (j : Nat) (y : UploadRecord), j < i → items[j]? = some y → y.numero = n →
        y.timestamp < x.timestamp) := by
  induction items generalizing x with
  | nil => cases h
  | cons a l ih =>
    by_cases ha : a.numero = n
    · simp only [latestOf, ha, if_true] at h
      cases hl : latestOf n l with
      | none =>
        simp only [hl] at h
        cases h
        have hnone := latestOf_eq_none n l hl
        refine ⟨0, List.getElem?_cons_zero, ha, ?_, ?_⟩
        · intro j y hj hy
          cases j with
          | zero => simp at hj; subst hj; exact le_refl _
          | succ j =>
            simp only [List.getElem?_cons_succ] at hj
            exact absurd hy (hnone y (List.getElem?_mem hj))
        · intro j y hj; omega
      | some b =>
        simp only [hl] at h
        obtain ⟨i, hi, hb, hmax, hfirst⟩ := ih b hl
        by_cases hba : b.timestamp ≤ a.timestamp
        · rw [if_pos hba] at h
          cases h
          refine ⟨0, List.getElem?_cons_zero, ha, ?_, ?_⟩
          · intro j y hj hy
            cases j with
            | zero => simp at hj; subst hj; exact le_refl _
            | succ j =>
              simp only [List.getElem?_cons_succ] at hj
              exact le_trans (hmax j y hj hy) hba
          · intro j y hj; omega
        · rw [if_neg hba] at h
          cases h
          refine ⟨i + 1, by simpa using hi, hb, ?_, ?_⟩
          · intro j y hj hy
            cases j with
            | zero => simp at hj; subst hj; omega
            | succ j =>
              simp only [List.getElem?_cons_succ] at hj
              exact hmax j y hj hy
          · intro j y hji hj hy
            cases j with
            | zero => simp at hj; subst hj; omega
            | succ j =>
              simp only [List.getElem?_cons_succ] at hj
              exact hfirst j y (by omega) hj hy
    · simp only [latestOf, ha, if_false] at h
      obtain ⟨i, hi, hb, hmax, hfirst⟩ := ih x h
      refine ⟨i + 1, by simpa using hi, hb, ?_, ?_⟩
      · intro j y hj hy
        cases j with
        | zero => simp at hj; subst hj; exact absurd hy ha
        | succ j =>
          simp only [List.getElem?_cons_succ] at hj
          exact hmax j y hj hy
      · intro j y hji hj hy
        cases j with
        | zero => simp at hj; subst hj; exact absurd hy ha
        | succ j =>
          simp only [List.getElem?_cons_succ] at hj
          exact hfirst j y (by omega) hj hy

theorem latestOf_isSome (n : JStr) (items : List UploadRecord)
    (h : ∃ x ∈ items, x.numero = n) : ∃ x, latestOf n items = some x := by
  cases hl : latestOf n items with
  | some x => exact ⟨x, rfl⟩
  | none =>
    obtain ⟨x, hx, hn⟩ := h
    exact absurd hn (latestOf_eq_none n items hl x hx)

theorem truthy_some_iff (s : JStr) : truthy (some s) = true ↔ s ≠ [] := by
  cases s <;> simp [truthy]

/-- The lookup once the identifier is known to be a non-empty string `n` and the index
holds the list `items`. -/
theorem getNotas_unfold (ENV_PUBLIC : JStr) (indexFile : IndexFile) (files : List String)
    (r : LookupReq) (n : JStr) (items : List UploadRecord)
    (hn : jsOr r.paramsNumero r.queryNumero = some n) (hne : n ≠ [])
    (hidx : (loadIndex indexFile).items = some items) :
    getNotas ENV_PUBLIC indexFile files r =
      match latestOf n items with
      | some found => .responded ⟨200, .found found.numero found.arquivo_url⟩
      | none =>
        match findInFiles files n with
        | none => .responded ⟨404, .erro "Nota não encontrada"⟩
        | some m =>
          match uploadUrl ENV_PUBLIC r.req (utf16 m) with
          | none => .threw
          | some url => .responded ⟨200, .found n url⟩ := by
  have ht : truthy (some n) = true := (truthy_some_iff n).mpr hne
  simp only [getNotas, hn, ht, hidx, jsString, findInIndex_eq_latestOf]
  simp

/-- C2: for an index document with items `items` and a queried identifier `n` that some item
matches, where `n` is not empty (as the route parameter of `GET /api/notas/:numero` never
is) or the records of the index have a non-empty `numero` (as every index the service
writes has), the lookup answers 200 with the stored `arquivo_url` of a matching item
`x = items[i]` whose timestamp is greatest among the matching items, and every matching
item before position `i` has a strictly smaller timestamp (so `x` is the one appended first
among those tied at the maximum). -/
theorem lookup_latest_match (ENV_PUBLIC : JStr) (items : List UploadRecord)
    (files : List String) (r : LookupReq) (n : JStr)
    (hn : jsOr r.paramsNumero r.queryNumero = some n)
    (hm : ∃ x ∈ items, x.numero = n)
    (hne : n ≠ [] ∨ numeroNonEmpty (.parsed ⟨some items⟩) = true) :
    ∃ (i : Nat) (x : UploadRecord), items[i]? = some x ∧ x.numero = n ∧
      (∀ (j : Nat) (y : UploadRecord), items[j]? = some y → y.numero = n →
        y.timestamp ≤ x.timestamp) ∧
      (∀ (j : Nat) (y : UploadRecord), j < i → items[j]? = some y → y.numero = n →
        y.timestamp < x.timestamp) ∧
      getNotas ENV_PUBLIC (.parsed ⟨some items⟩) files r =
        .responded ⟨200, .found n x.arquivo_url⟩ := by
  have hne2 : n ≠ [] := by
    rcases hne with h | h
    · exact h
    · obtain ⟨x, hx, hxn⟩ := hm
      simp only [numeroNonEmpty, List.all_eq_true] at h
      have := h x hx
      rw [hxn] at this
      simpa using this
  obtain ⟨x, hx⟩ := latestOf_isSome n items hm
  obtain ⟨i, hi, hxn, hmax, hfirst⟩ := latestOf_spec n items x hx
  refine ⟨i, x, hi, hxn, hmax, hfirst, ?_⟩
  rw [getNotas_unfold ENV_PUBLIC (.parsed ⟨some items⟩) files r n items hn hne2 rfl, hx]
  simp [hxn]

/-- Witness of C2: `GET /api/notas/12345` on an index with uploads of `12345` at times 1, 5
and 5; the answer is the first of the two uploads at time 5. -/
theorem lookup_latest_match_witness :
    (∃ x ∈ exampleItems, x.numero = utf16 "12345") ∧
    (∃ (i : Nat) (x : UploadRecord), exampleItems[i]? = some x ∧ x.numero = utf16 "12345" ∧
      (∀ (j : Nat) (y : UploadRecord), exampleItems[j]? = some y → y.numero = utf16 "12345" →
        y.timestamp ≤ x.timestamp) ∧
      (∀ (j : Nat) (y : UploadRecord), j < i → exampleItems[j]? = some y →
        y.numero = utf16 "12345" → y.timestamp < x.timestamp) ∧
      getNotas [] (.parsed ⟨some exampleItems⟩) [] exampleLookup =
        .responded ⟨200, .found (utf16 "12345") x.arquivo_url⟩) ∧
    getNotas [] (.parsed ⟨some exampleItems⟩) [] exampleLookup =
      .responded ⟨200, .found (utf16 "12345")
        (utf16 "http://example.org/uploads/12345-5-b.pdf")⟩ :=
  ⟨by decide,
   lookup_latest_match [] exampleItems [] exampleLookup (utf16 "12345") (by decide) (by decide)
     (Or.inl (by decide)),
   by decide⟩

/-- C3 (amended): for a non-empty queried identifier `n`, when the index file is unreadable or
holds an items list without a match for `n`, and the listing has a name that starts with
`sanitize(n) + "-"`, the lookup answers 200 with `numero = n` and the URL built from the
first such name `m` in listing order. -/
theorem lookup_fallback_first_file (ENV_PUBLIC : JStr) (indexFile : IndexFile)
    (files : List String) (r : LookupReq) (n : JStr)
    (hn : jsOr r.paramsNumero r.queryNumero = some n) (hne : n ≠ [])
    (hidx : indexFile = .unreadable ∨
      ∃ items, indexFile = .parsed ⟨some items⟩ ∧ ∀ x ∈ items, x.numero ≠ n)
    (hfile : ∃ name ∈ files, startsWith (utf16 name) (sanitize n ++ utf16 "-") = true) :
    ∃ (before after : List String) (m : String) (e : JStr),
      files = before ++ m :: after ∧
      (∀ name ∈ before, startsWith (utf16 name) (sanitize n ++ utf16 "-") = false) ∧
      startsWith (utf16 m) (sanitize n ++ utf16 "-") = true ∧
      encodeURIComponent (utf16 m) = some e ∧
      getNotas ENV_PUBLIC indexFile files r =
        .responded ⟨200, .found n (fullBaseUrl ENV_PUBLIC r.req ++ utf16 "/uploads/" ++ e)⟩ := by
  obtain ⟨items, hitems, hno⟩ : ∃ items, (loadIndex indexFile).items = some items ∧
      ∀ x ∈ items, x.numero ≠ n := by
    rcases hidx with rfl | ⟨items, rfl, h⟩
    · exact ⟨[], rfl, by simp⟩
    · exact ⟨items, rfl, h⟩
  have hlatest : latestOf n items = none := by
    cases hl : latestOf n items with
    | none => rfl
    | some x =>
      obtain ⟨i, hi, hx, -⟩ := latestOf_spec n items x hl
      exact absurd hx (hno x (List.getElem?_mem hi))
  obtain ⟨m, hm⟩ : ∃ m, findInFiles files n = some m := by
    cases hf : findInFiles files n with
    | some m => exact ⟨m, rfl⟩
    | none =>
      obtain ⟨name, hmem, hp⟩ := hfile
      have := List.find?_eq_none.mp hf name hmem
      exact absurd hp this
  obtain ⟨hpm, before, after, hsplit, hbefore⟩ := List.find?_eq_some.mp hm
  obtain ⟨e, he⟩ := encodeURIComponent_unitsOf m.toList
  refine ⟨before, after, m, e, hsplit, ?_, hpm, he, ?_⟩
  · intro name hname
    simpa using hbefore name hname
  · rw [getNotas_unfold ENV_PUBLIC indexFile files r n items hn hne hitems, hlatest]
    have he2 : encodeURIComponent (utf16 m) = some e := he
    simp [hm, uploadUrl, he2]

/-- Witness of C3: the index file is unreadable and the listing holds two files of `12345`. -/
theorem lookup_fallback_first_file_witness :
    ∃ (before after : List String) (m : String) (e : JStr),
      ["777-9-z.pdf", "12345-5-b é.pdf", "12345-1-a.pdf"] = before ++ m :: after ∧
      (∀ name ∈ before, startsWith (utf16 name) (sanitize (utf16 "12345") ++ utf16 "-") = false) ∧
      startsWith (utf16 m) (sanitize (utf16 "12345") ++ utf16 "-") = true ∧
      encodeURIComponent (utf16 m) = some e ∧
      getNotas [] .unreadable ["777-9-z.pdf", "12345-5-b é.pdf", "12345-1-a.pdf"] exampleLookup =
        .responded ⟨200, .found (utf16 "12345")
          (fullBaseUrl [] exampleLookup.req ++ utf16 "/uploads/" ++ e)⟩ :=
  lookup_fallback_first_file [] .unreadable ["777-9-z.pdf", "12345-5-b é.pdf", "12345-1-a.pdf"]
    exampleLookup (utf16 "12345") (by decide) (by decide) (Or.inl rfl) (by decide)

/-- C3 as stated fails for the empty identifier: no index item matches, the listing holds a
name that starts with `sanitize("") + "-"`, and the lookup answers 400 instead of 200. -/
theorem lookup_fallback_empty_identifier_is_400 :
    (∃ name ∈ ["-5-1700000000000-nf.pdf"],
      startsWith (utf16 name)
        (sanitize (jsString (jsOr emptyLookup.paramsNumero emptyLookup.queryNumero)) ++ utf16 "-") = true) ∧
    getNotas [] bootstrapIndex ["-5-1700000000000-nf.pdf"] emptyLookup =
      .responded ⟨400, .erro "Informe o número"⟩ := by
  decide

/-- C4: for a non-empty queried identifier `n` and an index with an items list, the lookup
answers 404 `Nota não encontrada` exactly when no item has `numero = n` and no listed name
starts with `sanitize(n) + "-"`; otherwise it answers 200 with a body `{ ok: true, ... }`. -/
theorem lookup_not_found_iff (ENV_PUBLIC : JStr) (indexFile : IndexFile)
    (items : List UploadRecord) (files : List String) (r : LookupReq) (n : JStr)
    (hn : jsOr r.paramsNumero r.queryNumero = some n) (hne : n ≠ [])
    (hidx : indexFile = .parsed ⟨some items⟩) :
    (getNotas ENV_PUBLIC indexFile files r = .responded ⟨404, .erro "Nota não encontrada"⟩ ↔
      (∀ x ∈ items, x.numero ≠ n) ∧
      (∀ name ∈ files, startsWith (utf16 name) (sanitize n ++ utf16 "-") = false)) ∧
    (getNotas ENV_PUBLIC indexFile files r ≠ .responded ⟨404, .erro "Nota não encontrada"⟩ →
      ∃ numero url, getNotas ENV_PUBLIC indexFile files r =
        .responded ⟨200, .found numero url⟩) := by
  subst hidx
  rw [getNotas_unfold ENV_PUBLIC (.parsed ⟨some items⟩) files r n items hn hne rfl]
  cases hl : latestOf n items with
  | some x =>
    obtain ⟨i, hi, hx, -⟩ := latestOf_spec n items x hl
    refine ⟨?_, fun _ => ⟨_, _, rfl⟩⟩
    constructor
    · intro h; simp at h
    · rintro ⟨h, -⟩
      exact absurd hx (h x (List.getElem?_mem hi))
  | none =>
    have hno := latestOf_eq_none n items hl
    cases hf : findInFiles files n with
    | none =>
      have hnf := List.find?_eq_none.mp hf
      refine ⟨?_, fun h => absurd rfl h⟩
      constructor
      · intro _
        exact ⟨hno, fun name hname => by simpa using hnf name hname⟩
      · intro _; rfl
    | some m =>
      obtain ⟨hpm, before, after, hsplit, -⟩ := List.find?_eq_some.mp hf
      obtain ⟨e, he⟩ := encodeURIComponent_unitsOf m.toList
      have he2 : encodeURIComponent (utf16 m) = some e := he
      have hmem : m ∈ files := by rw [hsplit]; simp
      simp only [uploadUrl, he2, Option.map_some']
      refine ⟨?_, fun _ => ⟨_, _, rfl⟩⟩
      constructor
      · intro h; simp at h
      · rintro ⟨-, h⟩
        have := h m hmem
        rw [hpm] at this
        cases this

/-- Witness of C4: `GET /api/notas/12345` with an empty index and no file of `12345`. -/
theorem lookup_not_found_iff_witness :
    (getNotas [] bootstrapIndex ["777-9-z.pdf"] exampleLookup =
        .responded ⟨404, .erro "Nota não encontrada"⟩ ↔
      (∀ x ∈ ([] : List UploadRecord), x.numero ≠ utf16 "12345") ∧
      (∀ name ∈ ["777-9-z.pdf"],
        startsWith (utf16 name) (sanitize (utf16 "12345") ++ utf16 "-") = false)) ∧
    (getNotas [] bootstrapIndex ["777-9-z.pdf"] exampleLookup ≠
        .responded ⟨404, .erro "Nota não encontrada"⟩ →
      ∃ numero url, getNotas [] bootstrapIndex ["777-9-z.pdf"] exampleLookup =
        .responded ⟨200, .found numero url⟩) :=
  lookup_not_found_iff [] bootstrapIndex [] ["777-9-z.pdf"] exampleLookup (utf16 "12345")
    (by decide) (by decide) rfl

/-- C9 fails on the code: with an index file that holds valid JSON without `items` (`{}`),
`GET /api/notas/12345` sends no response, because the `TypeError` of spreading `undefined`
leaves the handler, which has no `try`; the upload handler on the same index file catches
its `TypeError` and answers 500 with `{ ok: false, erro }`. -/
theorem lookup_throws_without_items :
    getNotas [] (.parsed ⟨none⟩) [] exampleLookup = .threw ∧
    (postNotas [] (.parsed ⟨none⟩) exampleUpload 1700000000000 1700000000002).1 =
      .responded ⟨500, .erro "Falha interna ao enviar"⟩ := by
  decide

/-! ## Auxiliary facts: the upload -/

theorem utf16_hyphen : utf16 "-" = [45] := by decide

theorem trim_nil : trim [] = [] := rfl

theorem orEmptyTrim_eq_none (v : Field) : orEmptyTrim v = none ↔ v = .other := by
  cases v <;> simp [orEmptyTrim]

theorem orEmptyTrim_str (s : JStr) : orEmptyTrim (.str s) = some (trim s) := by
  cases s <;> rfl

theorem orEmptyTrim_blank (v : Field) :
    orEmptyTrim v = some [] ↔ (v ≠ .other ∧ ∀ s, v = .str s → trim s = []) := by
  cases v with
  | undefined => simp [orEmptyTrim, Field.toOption, jsOr, truthy, jsString, trim_nil]
  | str s => simp [orEmptyTrim_str]
  | falsy => simp [orEmptyTrim, Field.toOption, jsOr, truthy, jsString, trim_nil]
  | other => simp [orEmptyTrim]

theorem storageFilename_unreserved (b : Option JStr) (ts : Nat) (o : Option JStr) :
    ∀ c ∈ storageFilename b ts o, isUnreserved c = true := by
  intro c hc
  simp only [storageFilename, utf16_hyphen, List.mem_append, List.mem_singleton] at hc
  rcases hc with (((h | h) | h) | h) | h
  · exact isUnreserved_of_isAllowed c (sanitize_allowed _ c h)
  · subst h; decide
  · have := decimal_digits ts c h
    simp only [isUnreserved, Bool.or_eq_true, Bool.and_eq_true, decide_eq_true_eq, beq_iff_eq]
    omega
  · subst h; decide
  · exact isUnreserved_of_isAllowed c (sanitize_allowed _ c h)

theorem uploadUrl_storageFilename (ENV_PUBLIC : JStr) (req : Req) (b : Option JStr) (ts : Nat)
    (o : Option JStr) :
    uploadUrl ENV_PUBLIC req (storageFilename b ts o) =
      some (fullBaseUrl ENV_PUBLIC req ++ utf16 "/uploads/" ++ storageFilename b ts o) := by
  simp [uploadUrl, encodeURIComponent_unreserved _ (storageFilename_unreserved b ts o)]

/-- What multer hands over: no file for a missing part or an empty file name, else the file
under its stored name, unless `storage.filename` throws. -/
theorem multerSingle_cases (r : UploadReq) (ts : Nat) :
    multerSingle r ts =
      match r.arquivo with
      | none => some none
      | some [] => some none
      | some (c :: cs) =>
        if r.numeroEnvioFirst = true ∧ r.numeroEnvio = .other then none
        else some (some
          { originalname := c :: cs
            filename := storageFilename
              (if r.numeroEnvioFirst = true then r.numeroEnvio.toOption else none) ts
              (some (c :: cs)) }) := by
  unfold multerSingle
  cases r.arquivo with
  | none => rfl
  | some f =>
    cases f with
    | nil => rfl
    | cons c cs =>
      cases r.numeroEnvioFirst with
      | false => simp [Field.toOption]
      | true => cases r.numeroEnvio <;> simp [Field.toOption]

theorem multerSingle_filename (r : UploadReq) (ts : Nat) (f : UploadedFile)
    (h : multerSingle r ts = some (some f)) :
    ∃ c cs, r.arquivo = some (c :: cs) ∧ f.originalname = c :: cs ∧
      f.filename = storageFilename
        (if r.numeroEnvioFirst = true then r.numeroEnvio.toOption else none) ts
        (some (c :: cs)) := by
  rw [multerSingle_cases] at h
  cases ha : r.arquivo with
  | none => simp [ha] at h
  | some g =>
    cases g with
    | nil => simp [ha] at h
    | cons c cs =>
      simp only [ha] at h
      split at h
      · cases h
      · simp only [Option.some.injEq] at h
        subst h
        exact ⟨c, cs, rfl, rfl, rfl⟩

/-- The upload handler without `req.file`: 500 when a `trim` throws, else 400. -/
theorem postNotasHandler_none (ENV_PUBLIC : JStr) (indexFile : IndexFile) (r : UploadReq)
    (now : Nat) :
    postNotasHandler ENV_PUBLIC indexFile r none now =
      if r.numeroEnvio = .other ∨ r.data = .other then
        (.responded ⟨500, .erro "Falha interna ao enviar"⟩, indexFile)
      else (.responded ⟨400, .erro "Campos obrigatórios: numeroEnvio e arquivo"⟩, indexFile) := by
  unfold postNotasHandler postNotasTry
  cases hn : orEmptyTrim r.numeroEnvio with
  | none =>
    have := (orEmptyTrim_eq_none _).mp hn
    simp [this]
  | some n =>
    have h1 : r.numeroEnvio ≠ .other := fun h => by
      rw [(orEmptyTrim_eq_none _).mpr h] at hn; cases hn
    cases hd : orEmptyTrim r.data with
    | none =>
      have := (orEmptyTrim_eq_none _).mp hd
      simp [this]
    | some d =>
      have h2 : r.data ≠ .other := fun h => by
        rw [(orEmptyTrim_eq_none _).mpr h] at hd; cases hd
      simp only [h1, h2, or_self, if_false]
      cases truthy (some n) <;> rfl

/-- The upload handler with a `req.file` stored under a name that `encodeURIComponent`
leaves as it is. -/
theorem postNotasHandler_some (ENV_PUBLIC : JStr) (indexFile : IndexFile) (r : UploadReq)
    (f : UploadedFile) (now : Nat) (hfile : ∀ c ∈ f.filename, isUnreserved c = true) :
    postNotasHandler ENV_PUBLIC indexFile r (some f) now =
      match orEmptyTrim r.numeroEnvio, orEmptyTrim r.data with
      | some n, some _ =>
        if n = [] then
          (.responded ⟨400, .erro "Campos obrigatórios: numeroEnvio e arquivo"⟩, indexFile)
        else
          match (loadIndex indexFile).items with
          | none => (.responded ⟨500, .erro "Falha interna ao enviar"⟩, indexFile)
          | some items =>
            let url := fullBaseUrl ENV_PUBLIC r.req ++ utf16 "/uploads/" ++ f.filename
            (.responded ⟨200, .uploaded n (dataOrNull r.data) url⟩,
             .parsed ⟨some (items ++ [{ numero := n, data := dataOrNull r.data,
                                        filename := f.filename, arquivo_url := url,
                                        timestamp := (now : Int) }])⟩)
      | _, _ => (.responded ⟨500, .erro "Falha interna ao enviar"⟩, indexFile) := by
  unfold postNotasHandler postNotasTry
  cases hn : orEmptyTrim r.numeroEnvio with
  | none => rfl
  | some n =>
    cases hd : orEmptyTrim r.data with
    | none => rfl
    | some d =>
      by_cases hb : n = []
      · subst hb
        simp [truthy]
      · have ht : truthy (some n) = true := (truthy_some_iff n).mpr hb
        have hu : uploadUrl ENV_PUBLIC r.req f.filename =
            some (fullBaseUrl ENV_PUBLIC r.req ++ utf16 "/uploads/" ++ f.filename) := by
          simp [uploadUrl, encodeURIComponent_unreserved _ hfile]
        simp only [ht, hu, if_neg hb]
        cases hi : (loadIndex indexFile).items with
        | none => rfl
        | some items =>
          have hdn : (if truthy (some d) = true then some d else none) = dataOrNull r.data := by
            unfold dataOrNull
            rw [hd]
            cases d <;> simp [truthy]
          simp only [hdn, saveIndex]

/-- The names multer stores are left as they are by `encodeURIComponent`. -/
theorem multerSingle_unreserved (r : UploadReq) (ts : Nat) (f : UploadedFile)
    (h : multerSingle r ts = some (some f)) :
    ∀ c ∈ f.filename, isUnreserved c = true := by
  obtain ⟨c, cs, -, -, hname⟩ := multerSingle_filename r ts f h
  rw [hname]
  exact storageFilename_unreserved _ _ _

/-- The upload handler always sends a response: its whole body is inside `try`. -/
theorem postNotasHandler_responds (ENV_PUBLIC : JStr) (indexFile : IndexFile) (r : UploadReq)
    (file : Option UploadedFile) (now : Nat) :
    ∃ resp, (postNotasHandler ENV_PUBLIC indexFile r file now).1 = .responded resp := by
  unfold postNotasHandler
  split <;> exact ⟨_, rfl⟩

/-- With an unreadable index file the lookup reads an empty items list and responds. -/
theorem getNotas_unreadable_responds (ENV_PUBLIC : JStr) (files : List String)
    (r : LookupReq) :
    ∃ resp, getNotas ENV_PUBLIC .unreadable files r = .responded resp := by
  by_cases ht : truthy (jsOr r.paramsNumero r.queryNumero) = true
  · cases hj : jsOr r.paramsNumero r.queryNumero with
    | none => rw [hj] at ht; cases ht
    | some n =>
      rw [hj] at ht
      rw [getNotas_unfold ENV_PUBLIC .unreadable files r n [] hj ((truthy_some_iff n).mp ht) rfl]
      simp only [latestOf]
      cases findInFiles files n with
      | none => exact ⟨_, rfl⟩
      | some m =>
        obtain ⟨e, he⟩ := encodeURIComponent_unitsOf m.toList
        have he2 : encodeURIComponent (utf16 m) = some e := he
        simp [uploadUrl, he2]
  · have hf : truthy (jsOr r.paramsNumero r.queryNumero) = false := by simpa using ht
    simp [getNotas, hf]

theorem multerSingle_none (r : UploadReq) (ts : Nat) (h : multerSingle r ts = none) :
    r.numeroEnvio = .other := by
  rw [multerSingle_cases] at h
  cases ha : r.arquivo with
  | none => simp [ha] at h
  | some g =>
    cases g with
    | nil => simp [ha] at h
    | cons c cs =>
      simp only [ha] at h
      split at h
      · rename_i hc; exact hc.2
      · cases h

theorem multerSingle_some_none (r : UploadReq) (ts : Nat) :
    multerSingle r ts = some none ↔ (r.arquivo = none ∨ r.arquivo = some []) := by
  rw [multerSingle_cases]
  cases ha : r.arquivo with
  | none => simp
  | some g =>
    cases g with
    | nil => simp
    | cons c cs =>
      simp only [Option.some.injEq, List.cons_ne_nil, or_self, iff_false, reduceCtorEq]
      split <;> simp

theorem orEmptyTrim_nonblank (v : Field) (m : JStr) (h : orEmptyTrim v = some m)
    (hm : m ≠ []) : ∃ s, v = .str s ∧ m = trim s := by
  cases v with
  | undefined =>
    simp [orEmptyTrim, Field.toOption, jsOr, truthy, jsString, trim_nil] at h
    exact absurd h hm
  | str s =>
    rw [orEmptyTrim_str] at h
    exact ⟨s, rfl, (Option.some.inj h).symm⟩
  | falsy =>
    simp [orEmptyTrim, Field.toOption, jsOr, truthy, jsString, trim_nil] at h
    exact absurd h hm
  | other => simp [orEmptyTrim] at h

/-- The stored value of a string field `data`: its trimmed text, or `null` when that is
empty. -/
theorem dataOrNull_str (s : JStr) :
    dataOrNull (.str s) = if trim s = [] then none else some (trim s) := by
  unfold dataOrNull
  rw [orEmptyTrim_str]
  cases trim s <;> simp

/-- C5 (amended): the upload route answers 400 `Campos obrigatórios: numeroEnvio e arquivo`
exactly when neither `numeroEnvio` nor `data` is a truthy value that is not a string, and
`numeroEnvio` is absent or empty after trimming or `req.file` is absent (no file part
`arquivo`, or one with an empty file name); whenever it answers so, the index file is
what it was; and a request that reaches the handler with a truthy `numeroEnvio` or `data`
that is not a string is answered 500, with the index file as it was. -/
theorem upload_400_iff (ENV_PUBLIC : JStr) (indexFile : IndexFile) (r : UploadReq)
    (ts now : Nat) :
    ((postNotas ENV_PUBLIC indexFile r ts now).1 =
        .responded ⟨400, .erro "Campos obrigatórios: numeroEnvio e arquivo"⟩ ↔
      (r.numeroEnvio ≠ .other ∧ r.data ≠ .other) ∧
      ((∀ s, r.numeroEnvio = .str s → trim s = []) ∨
        r.arquivo = none ∨ r.arquivo = some [])) ∧
    ((postNotas ENV_PUBLIC indexFile r ts now).1 =
        .responded ⟨400, .erro "Campos obrigatórios: numeroEnvio e arquivo"⟩ →
      (postNotas ENV_PUBLIC indexFile r ts now).2 = indexFile) ∧
    ((r.numeroEnvio = .other ∨ r.data = .other) → multerSingle r ts ≠ none →
      postNotas ENV_PUBLIC indexFile r ts now =
        (.responded ⟨500, .erro "Falha interna ao enviar"⟩, indexFile)) := by
  unfold postNotas
  cases hm : multerSingle r ts with
  | none =>
    have := multerSingle_none r ts hm
    simp [this]
  | some file =>
    cases file with
    | none =>
      have ha := (multerSingle_some_none r ts).mp hm
      dsimp only
      rw [postNotasHandler_none]
      by_cases ho : r.numeroEnvio = .other ∨ r.data = .other
      · rw [if_pos ho]
        refine ⟨⟨fun h => by simp at h, fun h => ?_⟩, fun h => by simp at h, fun _ _ => rfl⟩
        rcases ho with ho | ho
        · exact absurd ho h.1.1
        · exact absurd ho h.1.2
      · rw [if_neg ho]
        have ho2 := not_or.mp ho
        exact ⟨⟨fun _ => ⟨ho2, Or.inr ha⟩, fun _ => rfl⟩, fun _ => rfl, fun h => absurd h ho⟩
    | some f =>
      obtain ⟨c, cs, ha, -, -⟩ := multerSingle_filename r ts f hm
      have hfa : ¬ (r.arquivo = none ∨ r.arquivo = some []) := by simp [ha]
      dsimp only
      rw [postNotasHandler_some ENV_PUBLIC indexFile r f now (multerSingle_unreserved r ts f hm)]
      cases hn : orEmptyTrim r.numeroEnvio with
      | none =>
        have := (orEmptyTrim_eq_none _).mp hn
        simp [this]
      | some n =>
        have h1 : r.numeroEnvio ≠ .other := fun h => by
          rw [(orEmptyTrim_eq_none _).mpr h] at hn; cases hn
        cases hd : orEmptyTrim r.data with
        | none =>
          have := (orEmptyTrim_eq_none _).mp hd
          simp [this]
        | some d =>
          have h2 : r.data ≠ .other := fun h => by
            rw [(orEmptyTrim_eq_none _).mpr h] at hd; cases hd
          have h3 : ¬ (r.numeroEnvio = .other ∨ r.data = .other) := by simp [h1, h2]
          dsimp only
          by_cases hb : n = []
          · subst hb
            have hblank := ((orEmptyTrim_blank _).mp hn).2
            rw [if_pos rfl]
            exact ⟨⟨fun _ => ⟨⟨h1, h2⟩, Or.inl hblank⟩, fun _ => rfl⟩, fun _ => rfl,
              fun h => absurd h h3⟩
          · have hnb : ¬ (∀ s, r.numeroEnvio = .str s → trim s = []) := by
              intro hall
              have := (orEmptyTrim_blank r.numeroEnvio).mpr ⟨h1, hall⟩
              rw [hn] at this
              exact hb (Option.some.inj this)
            rw [if_neg hb]
            cases (loadIndex indexFile).items with
            | none =>
              refine ⟨⟨fun h => by simp at h, fun h => ?_⟩, fun h => by simp at h,
                fun h => absurd h h3⟩
              rcases h.2 with h | h
              · exact absurd h hnb
              · exact absurd h hfa
            | some items =>
              refine ⟨⟨fun h => by simp at h, fun h => ?_⟩, fun h => by simp at h,
                fun h => absurd h h3⟩
              rcases h.2 with h | h
              · exact absurd h hnb
              · exact absurd h hfa

/-- Witness of C5: a request whose `data` field is sent twice, with a file part, reaches the
handler and is answered 500. -/
theorem upload_400_iff_witness :
    postNotas [] bootstrapIndex
        { req := exampleReq, numeroEnvio := .str (utf16 "12345"), data := .other,
          arquivo := some (utf16 "nf.pdf"), numeroEnvioFirst := true }
        1700000000000 1700000000002 =
      (.responded ⟨500, .erro "Falha interna ao enviar"⟩, bootstrapIndex) :=
  (upload_400_iff [] bootstrapIndex
      { req := exampleReq, numeroEnvio := .str (utf16 "12345"), data := .other,
        arquivo := some (utf16 "nf.pdf"), numeroEnvioFirst := true }
      1700000000000 1700000000002).2.2 (Or.inr rfl) (by decide)

/-- C5 as stated fails: a request without a file part whose field `numeroEnvio` is sent
twice reaches the handler, and the answer is 500, not 400. -/
theorem upload_repeated_field_is_500 :
    repeatedFieldUpload.arquivo = none ∧
    multerSingle repeatedFieldUpload 1700000000000 = some none ∧
    (postNotas [] bootstrapIndex repeatedFieldUpload 1700000000000 1700000000002).1 =
      .responded ⟨500, .erro "Falha interna ao enviar"⟩ := by
  decide

/-- C7: on a readable index document with items list `L`, the upload answers 200 only for a
request with a string `numeroEnvio` that is not blank and a stored file; it does answer 200
for every request with such a `numeroEnvio`, a file part with a non-empty file name and a
`data` that is a string or absent; and on a 200 it saves the items `L` followed by one
record made of the trimmed `numeroEnvio`, the trimmed `data` or `null`, the stored file
name and the URL of the response. The lookup leaves the index file as it is. -/
theorem upload_appends_record (ENV_PUBLIC : JStr) (indexFile : IndexFile)
    (L : List UploadRecord) (r : UploadReq) (ts now : Nat)
    (hidx : indexFile = .parsed ⟨some L⟩) :
    (∀ body, (postNotas ENV_PUBLIC indexFile r ts now).1 = .responded ⟨200, body⟩ →
      ∃ (n : JStr) (file : UploadedFile) (url : JStr),
        r.numeroEnvio = .str n ∧ trim n ≠ [] ∧ multerSingle r ts = some (some file) ∧
        body = .uploaded (trim n) (dataOrNull r.data) url ∧
        (postNotas ENV_PUBLIC indexFile r ts now).2 =
          .parsed ⟨some (L ++ [{ numero := trim n, data := dataOrNull r.data,
                                 filename := file.filename, arquivo_url := url,
                                 timestamp := (now : Int) }])⟩) ∧
    (∀ n c cs, r.numeroEnvio = .str n → trim n ≠ [] → r.arquivo = some (c :: cs) →
      r.data ≠ .other →
      ∃ body, (postNotas ENV_PUBLIC indexFile r ts now).1 = .responded ⟨200, body⟩) ∧
    (∀ files lookup, (getNotasStep ENV_PUBLIC indexFile files lookup).2 = indexFile) := by
  subst hidx
  refine ⟨?_, ?_, fun _ _ => rfl⟩
  · intro body h
    unfold postNotas at h ⊢
    cases hm : multerSingle r ts with
    | none => simp [hm] at h
    | some file =>
      cases file with
      | none =>
        simp only [hm, postNotasHandler_none] at h
        split at h <;> simp at h
      | some f =>
        simp only [hm] at h ⊢
        rw [postNotasHandler_some ENV_PUBLIC _ r f now (multerSingle_unreserved r ts f hm)] at h ⊢
        cases hn : orEmptyTrim r.numeroEnvio with
        | none => simp [hn] at h
        | some m =>
          cases hd : orEmptyTrim r.data with
          | none => simp [hn, hd] at h
          | some d =>
            by_cases hb : m = []
            · simp [hn, hd, hb] at h
            · obtain ⟨n, hstr, hmn⟩ := orEmptyTrim_nonblank r.numeroEnvio m hn hb
              subst hmn
              simp only [hn, hd, if_neg hb, loadIndex] at h ⊢
              simp only [Outcome.responded.injEq, Response.mk.injEq, true_and] at h
              exact ⟨n, f, _, hstr, hb, rfl, h.symm, rfl⟩
  · intro n c cs hn hne ha hd
    unfold postNotas
    have hm : multerSingle r ts = some (some
        { originalname := c :: cs
          filename := storageFilename
            (if r.numeroEnvioFirst = true then r.numeroEnvio.toOption else none) ts
            (some (c :: cs)) }) := by
      rw [multerSingle_cases]
      simp [ha, hn]
    rw [hm]
    simp only []
    rw [postNotasHandler_some ENV_PUBLIC _ r _ now (storageFilename_unreserved _ _ _)]
    obtain ⟨d, hdd⟩ : ∃ d, orEmptyTrim r.data = some d := by
      cases h : orEmptyTrim r.data with
      | none => exact absurd ((orEmptyTrim_eq_none _).mp h) hd
      | some d => exact ⟨d, rfl⟩
    simp [hn, orEmptyTrim_str, hdd, hne, loadIndex]

/-- Witness of C7: an upload on an index that already holds four records. -/
theorem upload_appends_record_witness :
    (postNotas [] (.parsed ⟨some exampleItems⟩) exampleUpload 1700000000000 1700000000002).2 =
      .parsed ⟨some (exampleItems ++
        [{ numero := utf16 "12345", data := some (utf16 "2024-01-31"),
           filename := utf16 "_12345_-1700000000000-nf_1.pdf",
           arquivo_url := utf16 "http://example.org/uploads/_12345_-1700000000000-nf_1.pdf",
           timestamp := 1700000000002 }])⟩ := by
  obtain ⟨n, file, url, hn, -, hfile, hbody, hsaved⟩ :=
    (upload_appends_record [] (.parsed ⟨some exampleItems⟩) exampleItems exampleUpload
      1700000000000 1700000000002 rfl).1
      (.uploaded (utf16 "12345") (some (utf16 "2024-01-31"))
        (utf16 "http://example.org/uploads/_12345_-1700000000000-nf_1.pdf"))
      (by decide)
  cases hn
  have hf2 : multerSingle exampleUpload 1700000000000 =
      some (some ⟨utf16 "nf 1.pdf", utf16 "_12345_-1700000000000-nf_1.pdf"⟩) := by decide
  rw [hf2] at hfile
  cases hfile
  cases hbody
  rw [hsaved]
  decide

/-- C10: the bootstrapped index satisfies `numeroNonEmpty`, and from an index file that
satisfies it, the index file left by an upload and the one left by a lookup satisfy it. -/
theorem numero_nonempty_invariant (ENV_PUBLIC : JStr) (indexFile : IndexFile)
    (h : numeroNonEmpty indexFile = true) (r : UploadReq) (ts now : Nat)
    (files : List String) (lookup : LookupReq) :
    numeroNonEmpty bootstrapIndex = true ∧
    numeroNonEmpty (postNotas ENV_PUBLIC indexFile r ts now).2 = true ∧
    numeroNonEmpty (getNotasStep ENV_PUBLIC indexFile files lookup).2 = true := by
  refine ⟨rfl, ?_, h⟩
  unfold postNotas
  cases hm : multerSingle r ts with
  | none => exact h
  | some file =>
    cases file with
    | none =>
      simp only [postNotasHandler_none]
      split <;> exact h
    | some f =>
      simp only []
      rw [postNotasHandler_some ENV_PUBLIC indexFile r f now (multerSingle_unreserved r ts f hm)]
      cases hn : orEmptyTrim r.numeroEnvio with
      | none => exact h
      | some m =>
        cases hd : orEmptyTrim r.data with
        | none => exact h
        | some d =>
          by_cases hb : m = []
          · simpa [hb] using h
          · simp only [if_neg hb]
            cases hi : (loadIndex indexFile).items with
            | none => exact h
            | some items =>
              have hitems : items.all (fun x => x.numero != []) = true := by
                cases indexFile with
                | unreadable => cases hi; rfl
                | parsed doc =>
                  simp only [loadIndex] at hi
                  simpa [numeroNonEmpty, hi] using h
              simp only [numeroNonEmpty, List.all_append, hitems, Bool.true_and]
              simpa using hb

/-- Witness of C10: an upload on the bootstrapped index. -/
theorem numero_nonempty_invariant_witness :
    numeroNonEmpty bootstrapIndex = true ∧
    numeroNonEmpty (postNotas [] bootstrapIndex exampleUpload 1700000000000 1700000000002).2 = true ∧
    numeroNonEmpty (getNotasStep [] bootstrapIndex [] exampleLookup).2 = true :=
  numero_nonempty_invariant [] bootstrapIndex (by decide) exampleUpload 1700000000000
    1700000000002 [] exampleLookup

theorem startsWith_append (p t : JStr) : startsWith (p ++ t) p = true := by
  induction p with
  | nil => simp [startsWith, List.isPrefixOf]
  | cons c p ih =>
    simp only [startsWith] at ih
    simp [startsWith, List.isPrefixOf, ih]

theorem orDefault_of_ne_nil (s d : JStr) (h : s ≠ []) : jsString (jsOr (some s) (some d)) = s := by
  cases s with
  | nil => exact absurd rfl h
  | cons c s => rfl

/-- The round trip of an upload through the index, in either order of the parts: from an
index with an empty items list, an upload of a `numeroEnvio = n` that is not blank and of a
file with the non-empty name `f` answers 200 with a URL `base/uploads/seg`; a lookup of the
trimmed `n` then answers 200 with exactly that URL; `seg`, the stored name, has no `/`, is
left unchanged by `encodeURIComponent` and ends with `sanitize(f)`; and it starts with
`sanitize(n) + "-"` when the field `numeroEnvio` was sent before the file part. -/
theorem upload_round_trip (ENV_PUBLIC : JStr) (r : UploadReq) (ts now : Nat)
    (files : List String) (lookup : LookupReq) (n : JStr) (c : Nat) (cs : JStr)
    (hn : r.numeroEnvio = .str n) (hne : trim n ≠ []) (hf : r.arquivo = some (c :: cs))
    (hd : r.data ≠ .other)
    (hl : jsOr lookup.paramsNumero lookup.queryNumero = some (trim n)) :
    ∃ seg : JStr,
      (postNotas ENV_PUBLIC (.parsed ⟨some []⟩) r ts now).1 =
        .responded ⟨200, .uploaded (trim n) (dataOrNull r.data)
          (fullBaseUrl ENV_PUBLIC r.req ++ utf16 "/uploads/" ++ seg)⟩ ∧
      getNotas ENV_PUBLIC (postNotas ENV_PUBLIC (.parsed ⟨some []⟩) r ts now).2 files lookup =
        .responded ⟨200, .found (trim n)
          (fullBaseUrl ENV_PUBLIC r.req ++ utf16 "/uploads/" ++ seg)⟩ ∧
      multerSingle r ts = some (some ⟨c :: cs, seg⟩) ∧
      encodeURIComponent seg = some seg ∧
      47 ∉ seg ∧
      sanitize (c :: cs) <:+ seg ∧
      (r.numeroEnvioFirst = true → startsWith seg (sanitize n ++ utf16 "-") = true) := by
  have hnn : n ≠ [] := by
    intro h; subst h; exact hne trim_nil
  have hm : multerSingle r ts = some (some
      { originalname := c :: cs
        filename := storageFilename
          (if r.numeroEnvioFirst = true then r.numeroEnvio.toOption else none) ts
          (some (c :: cs)) }) := by
    rw [multerSingle_cases]
    simp [hf, hn]
  obtain ⟨d, hdd⟩ : ∃ d, orEmptyTrim r.data = some d := by
    cases h : orEmptyTrim r.data with
    | none => exact absurd ((orEmptyTrim_eq_none _).mp h) hd
    | some d => exact ⟨d, rfl⟩
  have hpost : postNotas ENV_PUBLIC (.parsed ⟨some []⟩) r ts now =
      (.responded ⟨200, .uploaded (trim n) (dataOrNull r.data)
          (fullBaseUrl ENV_PUBLIC r.req ++ utf16 "/uploads/" ++ storageFilename
            (if r.numeroEnvioFirst = true then r.numeroEnvio.toOption else none) ts
            (some (c :: cs)))⟩,
       .parsed ⟨some [{ numero := trim n, data := dataOrNull r.data,
                        filename := storageFilename
                          (if r.numeroEnvioFirst = true then r.numeroEnvio.toOption else none)
                          ts (some (c :: cs)),
                        arquivo_url := fullBaseUrl ENV_PUBLIC r.req ++ utf16 "/uploads/" ++
                          storageFilename
                            (if r.numeroEnvioFirst = true then r.numeroEnvio.toOption else none)
                            ts (some (c :: cs)),
                        timestamp := (now : Int) }]⟩) := by
    unfold postNotas
    rw [hm]
    dsimp only
    rw [postNotasHandler_some ENV_PUBLIC _ r _ now (storageFilename_unreserved _ _ _)]
    simp [hn, orEmptyTrim_str, hdd, hne, loadIndex]
  refine ⟨_, ?_, ?_, hm, ?_, ?_, ?_, ?_⟩
  · rw [hpost]
  · rw [hpost]
    have key : ∀ items : List UploadRecord,
        getNotas ENV_PUBLIC (.parsed ⟨some items⟩) files lookup = _ :=
      fun items => getNotas_unfold ENV_PUBLIC _ files lookup (trim n) items hl hne rfl
    dsimp only
    rw [key]
    simp [latestOf]
  · exact encodeURIComponent_unreserved _ (storageFilename_unreserved _ _ _)
  · intro h
    have := storageFilename_unreserved _ _ _ 47 h
    revert this
    decide
  · simp only [storageFilename]
    rw [orDefault_of_ne_nil (c :: cs) _ (List.cons_ne_nil c cs)]
    exact List.suffix_append _ _
  · intro hfirst
    simp only [hfirst, if_true, hn, Field.toOption, storageFilename,
      orDefault_of_ne_nil n _ hnn, List.append_assoc]
    rw [← List.append_assoc]
    exact startsWith_append _ _

/-- C6 fails on the code when the file part is sent before the field `numeroEnvio`: the upload
of `12345` with `nf.pdf` answers 200, and the last segment of the returned URL starts with
`sem_numero-`, not with `sanitize("12345") + "-"`; the same upload with the field sent first
is stored as `12345-...`. With the index file lost, the fallback of the lookup, which
looks for the start `12345-`, does not find the file. -/
theorem upload_file_first_stored_name :
    (postNotas [] bootstrapIndex fileFirstUpload 1700000000000 1700000000002).1 =
      .responded ⟨200, .uploaded (utf16 "12345") none
        (utf16 "http://example.org/uploads/sem_numero-1700000000000-nf.pdf")⟩ ∧
    startsWith (utf16 "sem_numero-1700000000000-nf.pdf")
      (sanitize (utf16 "12345") ++ utf16 "-") = false ∧
    (postNotas [] bootstrapIndex fieldFirstUpload 1700000000000 1700000000002).1 =
      .responded ⟨200, .uploaded (utf16 "12345") none
        (utf16 "http://example.org/uploads/12345-1700000000000-nf.pdf")⟩ ∧
    getNotas [] .unreadable ["sem_numero-1700000000000-nf.pdf"] exampleLookup =
      .responded ⟨404, .erro "Nota não encontrada"⟩ := by
  decide

/-! ## The stored name -/

theorem split_at_hyphen (d1 d2 o1 o2 : JStr) (h1 : 45 ∉ d1) (h2 : 45 ∉ d2)
    (h : d1 ++ 45 :: o1 = d2 ++ 45 :: o2) : d1 = d2 := by
  induction d1 generalizing d2 with
  | nil =>
    cases d2 with
    | nil => rfl
    | cons c d2 =>
      simp only [List.nil_append, List.cons_append, List.cons.injEq] at h
      exact absurd (List.mem_cons.mpr (Or.inl h.1)) h2
  | cons a d1 ih =>
    cases d2 with
    | nil =>
      simp only [List.nil_append, List.cons_append, List.cons.injEq] at h
      exact absurd (List.mem_cons.mpr (Or.inl h.1.symm)) h1
    | cons c d2 =>
      simp only [List.cons_append, List.cons.injEq] at h
      rw [h.1, ih d2 (fun hm => h1 (List.mem_cons_of_mem _ hm))
        (fun hm => h2 (List.mem_cons_of_mem _ hm)) h.2]

theorem decimal_no_hyphen (n : Nat) : 45 ∉ decimal n := by
  intro h
  have := decimal_digits n 45 h
  omega

/-- C8 (amended): two stored names with the same sanitized identifier part (in particular
two uploads of the same business identifier), or with the same sanitized file-name part,
differ whenever their epoch-millisecond values differ. -/
theorem storageFilename_ne_of_ts_ne (b1 b2 : Option JStr) (ts1 ts2 : Nat)
    (o1 o2 : Option JStr)
    (hsame :
      sanitize (jsString (jsOr b1 (some (utf16 "sem_numero")))) =
        sanitize (jsString (jsOr b2 (some (utf16 "sem_numero")))) ∨
      sanitize (jsString (jsOr o1 (some (utf16 "arquivo")))) =
        sanitize (jsString (jsOr o2 (some (utf16 "arquivo")))))
    (hts : ts1 ≠ ts2) :
    storageFilename b1 ts1 o1 ≠ storageFilename b2 ts2 o2 := by
  intro h
  apply hts
  apply decimal_injective
  simp only [storageFilename, utf16_hyphen, List.append_assoc, List.singleton_append] at h
  rcases hsame with hs | hs
  · rw [hs] at h
    have h2 := List.append_cancel_left h
    simp only [List.cons_append, List.cons.injEq, true_and] at h2
    exact split_at_hyphen _ _ _ _ (decimal_no_hyphen ts1) (decimal_no_hyphen ts2) h2
  · rw [hs] at h
    have h2 := congrArg List.reverse h
    simp only [List.reverse_append, List.reverse_cons, List.append_assoc,
      List.singleton_append] at h2
    have h3 := List.append_cancel_left h2
    simp only [List.cons_append, List.append_assoc, List.singleton_append, List.cons.injEq,
      true_and] at h3
    have h4 := split_at_hyphen _ _ _ _
      (fun hm => decimal_no_hyphen ts1 (List.mem_reverse.mp hm))
      (fun hm => decimal_no_hyphen ts2 (List.mem_reverse.mp hm)) h3
    exact List.reverse_injective h4

/-- Witness of C8: two uploads of `12345` one millisecond apart. -/
theorem storageFilename_ne_of_ts_ne_witness :
    storageFilename (some (utf16 "12345")) 1700000000000 (some (utf16 "nf.pdf")) ≠
      storageFilename (some (utf16 "12345")) 1700000000001 (some (utf16 "nf.pdf")) :=
  storageFilename_ne_of_ts_ne _ _ 1700000000000 1700000000001 _ _ (Or.inl rfl) (by decide)

/-- C8 as stated fails: two uploads in different milliseconds, of different identifiers
and file names, get the same stored name `a-1700000000000-1700000000001-b`. -/
theorem storageFilename_collision :
    (1700000000000 : Nat) ≠ 1700000000001 ∧
    storageFilename (some (utf16 "a")) 1700000000000 (some (utf16 "1700000000001-b")) =
      storageFilename (some (utf16 "a-1700000000000")) 1700000000001 (some (utf16 "b")) := by
  decide

end Cefnf
